import Mathlib

/-!
# torch::deploy instance pool (`torch/csrc/deploy/deploy.h`)

A shallow embedding of the boundary guard, the load balancer, sessions and the
interpreter manager declared in `deploy.h`, followed by theorems about them.

Conventions.
* `size_t` and `uint64_t` values are natural numbers; where the C++ arithmetic
  can wrap (the `8 * n` element count of the counter array, the increment and
  decrement of a `uint64_t` counter) the reduction modulo `2 ^ 64` is explicit.
* A C++ operation that may throw returns `Except Thrown α`; an operation that
  also changes the object returns the new object next to the outcome.
* An operation whose behaviour C++ leaves undefined on some input (indexing a
  vector out of range) returns `none` there.
* Code that lives outside `deploy.h` (the implementation classes of
  `interpreter_impl.h`, `c10::Error`, the assertion macros) is taken as a
  parameter, collected in `Host` or carried by the objects themselves.
-/

namespace torch.deploy

/-! ## Exceptions and the boundary guard -/

/-- The two constructor arguments of `c10::Error(msg, backtrace)`. -/
structure C10Error where
  msg : String
  backtrace : String
deriving DecidableEq, Repr

/-- An object thrown by a C++ `throw`. `c10` is the host-owned `c10::Error`
(which derives from `std::exception`), `stdexc w` any other exception derived
from `std::exception` whose `what()` is `w`, and `other` an object that is not
a `std::exception` and so carries no message. -/
inductive Thrown where
  | c10 (e : C10Error)
  | stdexc (what : String)
  | other
deriving DecidableEq, Repr

/-- An opaque environment-native value (`Obj` of `interpreter_impl.h`),
identified by its id. -/
structure Obj where
  id_ : Int
deriving DecidableEq, Repr

/-- The host-native values passed to an environment in this file: a string or
an `int`. -/
inductive IValue where
  | str (s : String)
  | int (i : Int)
deriving DecidableEq, Repr

/-- The parts of libtorch that `deploy.h` uses but does not define. -/
structure Host where
  /-- The text `c10::Error::what()` reports for an error. -/
  c10what : C10Error → String
  /-- The error thrown by a failed `TORCH_INTERNAL_ASSERT(cond)`, given the text of `cond`. -/
  internalAssert : String → C10Error
  /-- The error thrown by a failed `AT_ASSERT(cond)`, given the text of `cond`. -/
  atAssert : String → C10Error
  /-- The method `Obj::attr(name)` of `interpreter_impl.h`. -/
  objAttr : Obj → String → Except Thrown Obj
  /-- The call operator `Obj::operator()(args)` of `interpreter_impl.h`. -/
  objCall : Obj → List IValue → Except Thrown Obj

/-- The `what()` of a thrown object caught as `std::exception&`, when it is one. -/
def Thrown.what (h : Host) : Thrown → Option String
  | .c10 e => some (h.c10what e)
  | .stdexc w => some w
  | .other => none

/-- The literal of the `catch (std::exception & err)` arm. -/
def caughtText : String :=
  "Exception Caught inside torch::deploy embedded library: \n"

/-- The literal of the `catch (...)` arm. -/
def unknownText : String :=
  "Unknown Exception Caught inside torch::deploy embedded library"

/-- What the handlers of `TORCH_DEPLOY_SAFE_CATCH_RETHROW` throw for a caught object. -/
def rethrow (h : Host) : Thrown → Thrown
  | .c10 e => .c10 ⟨caughtText ++ h.c10what e, ""⟩
  | .stdexc w => .c10 ⟨caughtText ++ w, ""⟩
  | .other => .c10 ⟨unknownText, ""⟩

/-- The block `TORCH_DEPLOY_TRY body TORCH_DEPLOY_SAFE_CATCH_RETHROW`. -/
def deployTry {α : Type} (h : Host) (body : Except Thrown α) : Except Thrown α :=
  match body with
  | .ok v => .ok v
  | .error t => .error (rethrow h t)

/-- Whether an outcome is a throw. -/
def failed {α : Type} : Except Thrown α → Bool
  | .ok _ => false
  | .error _ => true

/-! ## LoadBalancer -/

/-- The state of `struct LoadBalancer`: the padded counter array `uses_` (the
counter of ordinal `i` is the word at index `8 * i`), `allocated_` and `n_`. -/
structure LoadBalancer where
  uses_ : List Nat
  allocated_ : Nat
  n_ : Nat
deriving DecidableEq, Repr

/-- The constructor `LoadBalancer(size_t n)`: `new uint64_t[8 * n]`, the count
computed in `size_t`, zeroed by the `memset`; `allocated_` and `n_` are `n`.
The allocation is assumed to succeed. -/
def LoadBalancer.new (n : Nat) : LoadBalancer :=
  { uses_ := List.replicate (8 * n % 2 ^ 64) 0, allocated_ := n, n_ := n }

/-- The method `LoadBalancer::setResourceLimit(size_t n)`: inside the guard,
`TORCH_INTERNAL_ASSERT(n <= allocated_)`, then `n_ = n`. -/
def LoadBalancer.setResourceLimit (h : Host) (lb : LoadBalancer) (n : Nat) :
    LoadBalancer × Except Thrown Unit :=
  if n ≤ lb.allocated_ then
    ({ lb with n_ := n }, deployTry h (.ok ()))
  else
    (lb, deployTry h (.error (.c10 (h.internalAssert "n <= allocated_"))))

/-- The usage counter of ordinal `i`, the word `uses_[8 * i]`. -/
def LoadBalancer.count (lb : LoadBalancer) (i : Nat) : Nat :=
  lb.uses_.getD (8 * i) 0

/-- Replace the usage counter of ordinal `i`. -/
def LoadBalancer.setCount (lb : LoadBalancer) (i : Nat) (v : Nat) : LoadBalancer :=
  { lb with uses_ := lb.uses_.set (8 * i) v }

/-- One step of the scan of `acquire`: ordinal `i` replaces the best so far only
when its counter is strictly smaller, so ties stay with the lowest ordinal. -/
def LoadBalancer.scanStep (lb : LoadBalancer) (best : Option Nat) (i : Nat) : Option Nat :=
  match best with
  | none => some i
  | some b => if lb.count i < lb.count b then some i else some b

/-- Modelled from the spec: the selection made by `LoadBalancer::acquire`, whose
body is in `deploy.cpp`. "Scan eligible ordinals, compare usage counters, pick
the minimum, break ties by lowest ordinal"; the eligible ordinals are those
`< active_limit`. There is no result when no ordinal is eligible. -/
def LoadBalancer.leastUsed (lb : LoadBalancer) : Option Nat :=
  (List.range lb.n_).foldl lb.scanStep none

/-- Modelled from the spec: `int LoadBalancer::acquire()`, whose body is in
`deploy.cpp`. It selects the least-used eligible ordinal and "increments that
ordinal's usage counter as part of selection"; the counter is a `uint64_t`. -/
def LoadBalancer.acquire (lb : LoadBalancer) : Option (Int × LoadBalancer) :=
  match lb.leastUsed with
  | none => none
  | some w => some ((w : Int), lb.setCount w ((lb.count w + 1) % 2 ^ 64))

/-- Modelled from the spec: `void LoadBalancer::free(int where)`, whose body is
in `deploy.cpp`: it "decrements the counter" of the ordinal, a `uint64_t`. An
ordinal without a counter is outside its contract and changes nothing here. -/
def LoadBalancer.free (lb : LoadBalancer) (where_ : Int) : LoadBalancer :=
  if 0 ≤ where_ then
    lb.setCount where_.toNat ((lb.count where_.toNat + 2 ^ 64 - 1) % 2 ^ 64)
  else lb

/-- A call on a load balancer. -/
inductive LBOp where
  | setResourceLimit (n : Nat)
  | acquire
  | free (where_ : Int)
deriving DecidableEq, Repr

/-- The load balancer after one call; a call that fails or has no result
leaves the state it found. -/
def LoadBalancer.step (h : Host) (lb : LoadBalancer) : LBOp → LoadBalancer
  | .setResourceLimit n => (lb.setResourceLimit h n).1
  | .acquire => match lb.acquire with
    | none => lb
    | some r => r.2
  | .free w => lb.free w

/-- The load balancer constructed with `n` counters after a sequence of calls. -/
def LoadBalancer.run (h : Host) (n : Nat) (ops : List LBOp) : LoadBalancer :=
  ops.foldl (LoadBalancer.step h) (LoadBalancer.new n)

/-- The load balancer constructed with `n` counters after a sequence of
`setResourceLimit` calls with the given arguments. -/
def LoadBalancer.runLimits (h : Host) (n : Nat) (ms : List Nat) : LoadBalancer :=
  ms.foldl (fun lb m => (lb.setResourceLimit h m).1) (LoadBalancer.new n)

/-! ## Sessions and interpreters -/

/-- The address of an `InterpreterManager`, the value of an `InterpreterManager*`. -/
abbrev ManagerRef := Nat

/-- The virtual interface `InterpreterSessionImpl` of `interpreter_impl.h`, as
far as `deploy.h` calls it. -/
structure InterpreterSessionImpl where
  global : String → String → Except Thrown Obj

/-- The members of `struct InterpreterSession`; `impl_` is `none` when the
`unique_ptr` is null, `manager_` is `none` when the pointer is null. -/
structure InterpreterSession where
  self : Obj
  impl_ : Option InterpreterSessionImpl
  manager_ : Option ManagerRef
  notify_idx_ : Int

/-- The constructor `InterpreterSession(impl, manager)`: `self` is
default-constructed and `notify_idx_` takes its default member initializer `-1`. -/
def InterpreterSession.new (impl : Option InterpreterSessionImpl)
    (manager : Option ManagerRef) : InterpreterSession :=
  { self := ⟨0⟩, impl_ := impl, manager_ := manager, notify_idx_ := -1 }

/-- The defaulted move constructor `InterpreterSession(InterpreterSession&&)`,
a member-wise move: the new session (first component) takes every member; in
the moved-from session (second component) the `unique_ptr` `impl_` is null,
while `self`, the raw pointer `manager_` and the integer `notify_idx_`, whose
move is a copy, keep their values. -/
def InterpreterSession.move (s : InterpreterSession) :
    InterpreterSession × InterpreterSession :=
  ({ self := s.self, impl_ := s.impl_, manager_ := s.manager_, notify_idx_ := s.notify_idx_ },
   { self := s.self, impl_ := none, manager_ := s.manager_, notify_idx_ := s.notify_idx_ })

/-- The method `InterpreterSession::global(module, name)`: inside the guard,
`impl_->global(module, name)`. Not defined when `impl_` is null. -/
def InterpreterSession.global (h : Host) (s : InterpreterSession) (modName name : String) :
    Option (Except Thrown Obj) :=
  match s.impl_ with
  | none => none
  | some impl => some (deployTry h (impl.global modName name))

/-- Modelled from the spec: the destructor `~InterpreterSession()`, whose body
is in `deploy.cpp`. "If the session was obtained via load-balanced acquisition,
notifies the Load Balancer's `free`": the result is the manager and the ordinal
notified, when the session has a manager and its ordinal is set. -/
def InterpreterSession.destroy (s : InterpreterSession) : Option (ManagerRef × Int) :=
  match s.manager_ with
  | none => none
  | some r => if 0 ≤ s.notify_idx_ then some (r, s.notify_idx_) else none

/-- The `free` notifications sent when the sessions of a list are destroyed. -/
def freeNotifications (ss : List InterpreterSession) : List (ManagerRef × Int) :=
  ss.filterMap InterpreterSession.destroy

/-- The virtual interface `InterpreterImpl` of `interpreter_impl.h`: an opaque
runtime whose `acquire_session()` may succeed or throw differently from one
call to the next. `script k` is the outcome of call number `k`, `calls` the
number of calls made so far. -/
structure InterpreterImpl where
  script : Nat → Except Thrown InterpreterSessionImpl
  calls : Nat

/-- The call `pImpl_->acquire_session()`: its outcome and the runtime afterwards. -/
def InterpreterImpl.acquire_session (p : InterpreterImpl) :
    InterpreterImpl × Except Thrown InterpreterSessionImpl :=
  ({ p with calls := p.calls + 1 }, p.script p.calls)

/-- The members of `class Interpreter` that the operations of `deploy.h` read. -/
structure Interpreter where
  pImpl_ : InterpreterImpl
  manager_ : Option ManagerRef

/-- Modelled from the spec: the constructor `Interpreter(InterpreterManager*)`,
whose body is in `deploy.cpp`. It loads one copy of the runtime ("failures to
load are fatal at Pool construction") and keeps the manager it is given. -/
def Interpreter.new (loaded : Except Thrown InterpreterImpl) (manager : Option ManagerRef) :
    Except Thrown Interpreter :=
  match loaded with
  | .error t => .error t
  | .ok p => .ok { pImpl_ := p, manager_ := manager }

/-- The method `Interpreter::acquire_session()`: inside the guard,
`InterpreterSession(pImpl_->acquire_session(), manager_)`. -/
def Interpreter.acquire_session (h : Host) (it : Interpreter) :
    Interpreter × Except Thrown InterpreterSession :=
  ({ it with pImpl_ := it.pImpl_.acquire_session.1 },
   deployTry h (match it.pImpl_.acquire_session.2 with
     | .error t => .error t
     | .ok impl => .ok (InterpreterSession.new (some impl) it.manager_)))

/-! ## InterpreterManager -/

/-- The members of `struct InterpreterManager`, with `addr` the address of the
object (the value of `this`). -/
structure InterpreterManager where
  addr : ManagerRef
  next_object_id_ : Nat
  instances_ : List Interpreter
  resources_ : LoadBalancer

/-- The effect on a pool of destroying a session: the destructor's `free`
reaches this pool's load balancer when the session's manager is this pool. -/
def InterpreterManager.sessionDestroyed (m : InterpreterManager) (s : InterpreterSession) :
    InterpreterManager :=
  match s.destroy with
  | none => m
  | some (r, w) => if r = m.addr then { m with resources_ := m.resources_.free w } else m

/-- The statement `I.global("torch", "version").attr("__setattr__")({"interp", int(i)})`
of the constructor's loop. -/
def InterpreterSession.tagVersion (h : Host) (I : InterpreterSession) (i : Nat) :
    Option (Except Thrown Unit) :=
  match I.global h "torch" "version" with
  | none => none
  | some (.error t) => some (.error t)
  | some (.ok v) =>
    match h.objAttr v "__setattr__" with
    | .error t => some (.error t)
    | .ok f =>
      match h.objCall f [.str "interp", .int (Int.bmod (i : Int) (2 ^ 32))] with
      | .error t => some (.error t)
      | .ok _ => some (.ok ())

/-- One iteration of the constructor's loop for index `i`:
`instances_.emplace_back(this)`, `instances_.back().acquire_session()`, the
tagging statement, and the destruction of the session `I` at the end of the
iteration (also when the tagging throws). `load i` is the outcome of loading
the runtime of instance `i`. -/
def InterpreterManager.initInstance (h : Host) (load : Nat → Except Thrown InterpreterImpl)
    (m : InterpreterManager) (i : Nat) : Option (InterpreterManager × Except Thrown Unit) :=
  match Interpreter.new (load i) (some m.addr) with
  | .error t => some (m, .error t)
  | .ok it =>
    let m1 : InterpreterManager :=
      { m with instances_ := m.instances_ ++ [(it.acquire_session h).1] }
    match (it.acquire_session h).2 with
    | .error t => some (m1, .error t)
    | .ok I =>
      match I.tagVersion h i with
      | none => none
      | some out => some (m1.sessionDestroyed I, out)

/-- The loop `for (size_t i = 0; i < n_interp; ++i)` of the constructor, with
`k` iterations left starting at index `i`; it stops at the first throw. -/
def InterpreterManager.initLoop (h : Host) (load : Nat → Except Thrown InterpreterImpl) :
    Nat → Nat → InterpreterManager → Option (InterpreterManager × Except Thrown Unit)
  | 0, _, m => some (m, .ok ())
  | k + 1, i, m =>
    match InterpreterManager.initInstance h load m i with
    | none => none
    | some (m1, .error t) => some (m1, .error t)
    | some (m1, .ok _) => InterpreterManager.initLoop h load k (i + 1) m1

/-- The constructor `InterpreterManager(size_t n_interp)` of the pool at address
`this`: `resources_(n_interp)`, then the guarded loop. The outcome is the pool
or the error the guard throws. -/
def InterpreterManager.new (h : Host) (load : Nat → Except Thrown InterpreterImpl)
    (this : ManagerRef) (n_interp : Nat) : Option (Except Thrown InterpreterManager) :=
  match InterpreterManager.initLoop h load n_interp 0
      { addr := this, next_object_id_ := 0, instances_ := [],
        resources_ := LoadBalancer.new n_interp } with
  | none => none
  | some (m, .ok _) => some (.ok m)
  | some (_, .error t) => some (deployTry h (.error t))

/-- The method `InterpreterManager::acquire_one()`: inside the guard,
`where = resources_.acquire()`, `I = instances_[where].acquire_session()`,
`I.notify_idx_ = where`, `return I` (the returned object is `I` itself). The
result is the pool afterwards and the outcome; there is none when `acquire`
has no result or `where` is not an index of `instances_`. -/
def InterpreterManager.acquire_one (h : Host) (m : InterpreterManager) :
    Option (InterpreterManager × Except Thrown InterpreterSession) :=
  match m.resources_.acquire with
  | none => none
  | some (w, lb) =>
    if w < 0 then none else
    match m.instances_[w.toNat]? with
    | none => none
    | some it =>
      some ({ m with resources_ := lb,
                     instances_ := m.instances_.set w.toNat (it.acquire_session h).1 },
            deployTry h (match (it.acquire_session h).2 with
              | .error t => .error t
              | .ok I => .ok { I with notify_idx_ := w }))

/-- The method `InterpreterManager::debugLimitInterpreters(N)`: inside the
guard, `AT_ASSERT(N <= instances_.size())`, then `resources_.setResourceLimit(N)`. -/
def InterpreterManager.debugLimitInterpreters (h : Host) (m : InterpreterManager) (N : Nat) :
    InterpreterManager × Except Thrown Unit :=
  if N ≤ m.instances_.length then
    ({ m with resources_ := (m.resources_.setResourceLimit h N).1 },
     deployTry h (m.resources_.setResourceLimit h N).2)
  else
    (m, deployTry h (.error (.c10 (h.atAssert "N <= instances_.size()"))))

/-- A call on a pool, or the destruction of a session. -/
inductive PoolOp where
  | acquire_one
  | debugLimitInterpreters (N : Nat)
  | destroySession (s : InterpreterSession)

/-- The pool after one operation; an operation without a result leaves the
pool it found. -/
def InterpreterManager.step (h : Host) (m : InterpreterManager) : PoolOp → InterpreterManager
  | .acquire_one => match m.acquire_one h with
    | none => m
    | some r => r.1
  | .debugLimitInterpreters N => (m.debugLimitInterpreters h N).1
  | .destroySession s => m.sessionDestroyed s

/-- The pool after a sequence of operations. -/
def InterpreterManager.run (h : Host) (m : InterpreterManager) (ops : List PoolOp) :
    InterpreterManager :=
  ops.foldl (InterpreterManager.step h) m

/-- The guard applied `k` times, as around `k` nested guarded calls. -/
def deployTryN {α : Type} (h : Host) : Nat → Except Thrown α → Except Thrown α
  | 0, body => body
  | k + 1, body => deployTry h (deployTryN h k body)

/-- The ordinals returned by `k` successive calls of `acquire` with no `free`
in between, and the load balancer afterwards. -/
def LoadBalancer.acquireN : Nat → LoadBalancer → Option (List Int × LoadBalancer)
  | 0, lb => some ([], lb)
  | k + 1, lb =>
    match lb.acquire with
    | none => none
    | some (w, lb1) =>
      match LoadBalancer.acquireN k lb1 with
      | none => none
      | some (ws, lb2) => some (w :: ws, lb2)

/-- The facts that hold of the pool at address `this` built with `n` instances:
its address, the number of its instances, the capacity of its load balancer,
the manager recorded in each instance, and the bound on the active limit. -/
def InterpreterManager.WellFormed (this : ManagerRef) (n : Nat) (m : InterpreterManager) : Prop :=
  m.addr = this ∧ m.instances_.length = n ∧ m.resources_.allocated_ = n ∧
    (∀ it ∈ m.instances_, it.manager_ = some this) ∧ m.resources_.n_ ≤ n

/-- The guard's text for `std::exception`, `k` times in a row. -/
def guardTexts : Nat → String
  | 0 => ""
  | k + 1 => caughtText ++ guardTexts k

/-! ## Concrete hosts and runtimes used as inputs -/

/-- A host whose `c10::Error::what()` is the message, a newline and the
backtrace, and whose objects accept every attribute lookup and call. -/
def plainHost : Host :=
  { c10what := fun e => e.msg ++ "\n" ++ e.backtrace
    internalAssert := fun c => ⟨c ++ " INTERNAL ASSERT FAILED", ""⟩
    atAssert := fun c => ⟨c ++ " ASSERT FAILED", ""⟩
    objAttr := fun o _ => .ok o
    objCall := fun o _ => .ok o }

/-- A session implementation in which every global resolves to the object 7,
except that module `missing_mod` raises. -/
def plainSession : InterpreterSessionImpl :=
  { global := fun modName _ =>
      if modName = "missing_mod" then .error (.stdexc "No module named missing_mod")
      else .ok ⟨7⟩ }

/-- A runtime whose `acquire_session()` always succeeds. -/
def steadyRuntime : InterpreterImpl :=
  { script := fun _ => .ok plainSession, calls := 0 }

/-- A runtime whose `acquire_session()` succeeds on its first call and throws
`std::runtime_error("busy")` on every later one. -/
def flakyRuntime : InterpreterImpl :=
  { script := fun k => if k = 0 then .ok plainSession else .error (.stdexc "busy"), calls := 0 }

/-! ## The boundary guard -/

theorem failed_deployTry {α : Type} (h : Host) (body : Except Thrown α) :
    failed (deployTry h body) = failed body := by
  cases body <;> rfl

theorem rethrow_is_c10 (h : Host) (t : Thrown) : ∃ e, rethrow h t = .c10 e := by
  cases t <;> exact ⟨_, rfl⟩

/-! ## The load balancer -/

theorem LoadBalancer.setResourceLimit_allocated (h : Host) (lb : LoadBalancer) (m : Nat) :
    (lb.setResourceLimit h m).1.allocated_ = lb.allocated_ := by
  unfold LoadBalancer.setResourceLimit
  split <;> rfl

theorem LoadBalancer.setResourceLimit_failed (h : Host) (lb : LoadBalancer) (m : Nat) :
    failed (lb.setResourceLimit h m).2 = true ↔ lb.allocated_ < m := by
  unfold LoadBalancer.setResourceLimit
  split
  · simp [deployTry, failed]; omega
  · simp [deployTry, failed]; omega

theorem LoadBalancer.setResourceLimit_ok (h : Host) (lb : LoadBalancer) (m : Nat)
    (hm : m ≤ lb.allocated_) :
    lb.setResourceLimit h m = ({ lb with n_ := m }, .ok ()) := by
  simp [LoadBalancer.setResourceLimit, hm, deployTry]

theorem LoadBalancer.setResourceLimit_error (h : Host) (lb : LoadBalancer) (m : Nat)
    (hm : lb.allocated_ < m) :
    lb.setResourceLimit h m =
      (lb, .error (.c10 ⟨caughtText ++ h.c10what (h.internalAssert "n <= allocated_"), ""⟩)) := by
  have : ¬ m ≤ lb.allocated_ := by omega
  simp [LoadBalancer.setResourceLimit, this, deployTry, rethrow]

theorem LoadBalancer.step_allocated (h : Host) (lb : LoadBalancer) (op : LBOp) :
    (lb.step h op).allocated_ = lb.allocated_ := by
  cases op with
  | setResourceLimit n => exact LoadBalancer.setResourceLimit_allocated h lb n
  | acquire =>
    simp only [LoadBalancer.step, LoadBalancer.acquire]
    cases lb.leastUsed <;> rfl
  | free w =>
    simp only [LoadBalancer.step, LoadBalancer.free]
    split <;> rfl

theorem LoadBalancer.foldl_step_allocated (h : Host) (ops : List LBOp) (lb : LoadBalancer) :
    (ops.foldl (LoadBalancer.step h) lb).allocated_ = lb.allocated_ := by
  induction ops generalizing lb with
  | nil => rfl
  | cons op ops ih => rw [List.foldl_cons, ih, LoadBalancer.step_allocated]

theorem LoadBalancer.run_allocated (h : Host) (n : Nat) (ops : List LBOp) :
    (LoadBalancer.run h n ops).allocated_ = n :=
  LoadBalancer.foldl_step_allocated h ops (LoadBalancer.new n)

theorem LoadBalancer.foldl_limits_inv (h : Host) (ms : List Nat) (lb : LoadBalancer)
    (hlb : lb.n_ ≤ lb.allocated_) :
    (ms.foldl (fun lb m => (lb.setResourceLimit h m).1) lb).n_ ≤ lb.allocated_ ∧
    (ms.foldl (fun lb m => (lb.setResourceLimit h m).1) lb).allocated_ = lb.allocated_ := by
  induction ms generalizing lb with
  | nil => exact ⟨hlb, rfl⟩
  | cons m ms ih =>
    rw [List.foldl_cons]
    have ha := LoadBalancer.setResourceLimit_allocated h lb m
    have hn : (lb.setResourceLimit h m).1.n_ ≤ (lb.setResourceLimit h m).1.allocated_ := by
      rw [ha]
      unfold LoadBalancer.setResourceLimit
      split
      · assumption
      · exact hlb
    have := ih (lb.setResourceLimit h m).1 hn
    rw [ha] at this
    exact this

/-- C1: for the load balancer constructed with `n` counters, in the state after
any sequence of calls, `setResourceLimit(m)` fails exactly when `m > n`; when
`m ≤ n` it succeeds, leaves `n_ = m` and the capacity `n`, and from the state
it leaves every further limit `m2 ≤ n`, smaller or larger than `m`, is
accepted and becomes the active limit. -/
theorem LoadBalancer.setResourceLimit_fails_iff_above_capacity
    (h : Host) (n : Nat) (ops : List LBOp) (m : Nat) :
    (failed ((LoadBalancer.run h n ops).setResourceLimit h m).2 = true ↔ n < m) ∧
    (m ≤ n →
      ((LoadBalancer.run h n ops).setResourceLimit h m).2 = .ok () ∧
      ((LoadBalancer.run h n ops).setResourceLimit h m).1.n_ = m ∧
      ((LoadBalancer.run h n ops).setResourceLimit h m).1.allocated_ = n ∧
      ∀ m2, m2 ≤ n →
        ((((LoadBalancer.run h n ops).setResourceLimit h m).1).setResourceLimit h m2).2 = .ok () ∧
        ((((LoadBalancer.run h n ops).setResourceLimit h m).1).setResourceLimit h m2).1.n_ = m2) := by
  have ha := LoadBalancer.run_allocated h n ops
  refine ⟨?_, ?_⟩
  · rw [LoadBalancer.setResourceLimit_failed, ha]
  · intro hm
    have hm1 : m ≤ (LoadBalancer.run h n ops).allocated_ := by omega
    rw [LoadBalancer.setResourceLimit_ok h _ m hm1]
    refine ⟨rfl, rfl, ha, ?_⟩
    intro m2 hm2
    have hm3 : m2 ≤ ({ LoadBalancer.run h n ops with n_ := m } : LoadBalancer).allocated_ := by
      show m2 ≤ (LoadBalancer.run h n ops).allocated_
      omega
    rw [LoadBalancer.setResourceLimit_ok h _ m2 hm3]
    exact ⟨rfl, rfl⟩

/-- Witness of C1: three counters, the limit shrunk to 1 after an `acquire`, a
`free` and a rejected request for 5, then grown back to 3. -/
theorem LoadBalancer.setResourceLimit_fails_iff_above_capacity_witness :
    (failed ((LoadBalancer.run plainHost 3
        [.acquire, .free 0, .setResourceLimit 5]).setResourceLimit plainHost 1).2 = true ↔ 3 < 1) ∧
    ((((LoadBalancer.run plainHost 3
        [.acquire, .free 0, .setResourceLimit 5]).setResourceLimit plainHost 1).1).setResourceLimit
          plainHost 3).1.n_ = 3 :=
  ⟨(LoadBalancer.setResourceLimit_fails_iff_above_capacity plainHost 3
      [.acquire, .free 0, .setResourceLimit 5] 1).1,
   (((LoadBalancer.setResourceLimit_fails_iff_above_capacity plainHost 3
      [.acquire, .free 0, .setResourceLimit 5] 1).2 (by decide)).2.2.2 3 (by decide)).2⟩

/-- C2: in every state reached from `LoadBalancer(n)` by `setResourceLimit`
calls, successful or failing, `0 ≤ n_ ≤ allocated_ = n`; a failing
`setResourceLimit` leaves the whole state, the active limit included, as it was. -/
theorem LoadBalancer.limit_within_capacity (h : Host) (n : Nat) (ms : List Nat) :
    0 ≤ (LoadBalancer.runLimits h n ms).n_ ∧
    (LoadBalancer.runLimits h n ms).n_ ≤ (LoadBalancer.runLimits h n ms).allocated_ ∧
    (LoadBalancer.runLimits h n ms).allocated_ = n ∧
    ∀ m, failed ((LoadBalancer.runLimits h n ms).setResourceLimit h m).2 = true →
      ((LoadBalancer.runLimits h n ms).setResourceLimit h m).1 = LoadBalancer.runLimits h n ms ∧
      ((LoadBalancer.runLimits h n ms).setResourceLimit h m).1.n_ =
        (LoadBalancer.runLimits h n ms).n_ := by
  have hinv := LoadBalancer.foldl_limits_inv h ms (LoadBalancer.new n) (Nat.le_refl n)
  refine ⟨Nat.zero_le _, ?_, hinv.2, ?_⟩
  · have h1 := hinv.1
    have h2 := hinv.2
    unfold LoadBalancer.runLimits
    omega
  · intro m hf
    rw [LoadBalancer.setResourceLimit_failed] at hf
    rw [LoadBalancer.setResourceLimit_error h _ m hf]
    exact ⟨rfl, rfl⟩

/-- Witness of C2: after the limits 1, 9 (rejected) and 2 on four counters, a
request for 7 fails and the active limit stays 2. -/
theorem LoadBalancer.limit_within_capacity_witness :
    failed ((LoadBalancer.runLimits plainHost 4 [1, 9, 2]).setResourceLimit plainHost 7).2 = true ∧
    ((LoadBalancer.runLimits plainHost 4 [1, 9, 2]).setResourceLimit plainHost 7).1.n_ = 2 :=
  ⟨by decide,
   ((LoadBalancer.limit_within_capacity plainHost 4 [1, 9, 2]).2.2.2 7 (by decide)).2.trans
     (by decide)⟩

/-! ## The guard around `InterpreterSession::global` -/

theorem rethrow_of_what (h : Host) (t : Thrown) (w : String) (ht : t.what h = some w) :
    rethrow h t = .c10 ⟨caughtText ++ w, ""⟩ := by
  cases t with
  | c10 e => simp only [Thrown.what, Option.some.injEq] at ht; simp [rethrow, ht]
  | stdexc v => simp only [Thrown.what, Option.some.injEq] at ht; simp [rethrow, ht]
  | other => simp [Thrown.what] at ht

theorem rethrow_of_no_what (h : Host) (t : Thrown) (ht : t.what h = none) :
    rethrow h t = .c10 ⟨unknownText, ""⟩ := by
  cases t with
  | c10 e => simp [Thrown.what] at ht
  | stdexc v => simp [Thrown.what] at ht
  | other => rfl

theorem infix_data_append (p w : String) : w.data <:+: (p ++ w).data := by
  rw [String.data_append]
  exact (List.suffix_append _ _).isInfix

/-- C3: on a session that has an implementation, `global(module, name)` returns
exactly the value the implementation returns, or throws a `c10::Error` and
nothing else. When the implementation throws an exception whose `what()` is `w`,
the error's message is the guard's text followed by `w`, so `w` occurs in it;
when it throws an object without a message, the error's message is the fixed
text for unknown exceptions. -/
theorem InterpreterSession.global_returns_value_or_c10
    (h : Host) (s : InterpreterSession) (impl : InterpreterSessionImpl)
    (modName name : String) (hs : s.impl_ = some impl) :
    ∃ r, s.global h modName name = some r ∧
      (∀ v, impl.global modName name = .ok v → r = .ok v) ∧
      (∀ t, impl.global modName name = .error t →
        ∃ e, r = .error (.c10 e) ∧
          (∀ w, t.what h = some w →
            e.msg = "Exception Caught inside torch::deploy embedded library: \n" ++ w ∧
            w.data <:+: e.msg.data) ∧
          (t.what h = none →
            e.msg = "Unknown Exception Caught inside torch::deploy embedded library")) ∧
      (∀ t, r = .error t → ∃ e, t = .c10 e) := by
  refine ⟨deployTry h (impl.global modName name), ?_, ?_, ?_, ?_⟩
  · simp [InterpreterSession.global, hs]
  · intro v hv
    rw [hv]; rfl
  · intro t ht
    rw [ht]
    obtain ⟨e, he⟩ := rethrow_is_c10 h t
    refine ⟨e, ?_, ?_, ?_⟩
    · simp [deployTry, he]
    · intro w hw
      rw [rethrow_of_what h t w hw] at he
      have hmsg : e.msg = caughtText ++ w := by
        injection he with he1
        rw [← he1]
      exact ⟨hmsg, by rw [hmsg]; exact infix_data_append _ _⟩
    · intro hn
      rw [rethrow_of_no_what h t hn] at he
      injection he with he1
      rw [← he1]; rfl
  · intro t ht
    cases hg : impl.global modName name with
    | ok v => rw [hg] at ht; simp [deployTry] at ht
    | error t0 =>
      rw [hg] at ht
      simp only [deployTry, Except.error.injEq] at ht
      rw [← ht]
      exact rethrow_is_c10 h t0

/-- Witness of C3: looking up `missing_mod.missing_name` on a session whose
implementation raises for that module. -/
theorem InterpreterSession.global_returns_value_or_c10_witness :
    (InterpreterSession.new (some plainSession) none).impl_ = some plainSession ∧
    ∃ r, InterpreterSession.global plainHost (InterpreterSession.new (some plainSession) none)
        "missing_mod" "missing_name" = some r ∧
      (∀ v, plainSession.global "missing_mod" "missing_name" = .ok v → r = .ok v) ∧
      (∀ t, plainSession.global "missing_mod" "missing_name" = .error t →
        ∃ e, r = .error (.c10 e) ∧
          (∀ w, t.what plainHost = some w →
            e.msg = "Exception Caught inside torch::deploy embedded library: \n" ++ w ∧
            w.data <:+: e.msg.data) ∧
          (t.what plainHost = none →
            e.msg = "Unknown Exception Caught inside torch::deploy embedded library")) ∧
      (∀ t, r = .error t → ∃ e, t = .c10 e) :=
  ⟨rfl, InterpreterSession.global_returns_value_or_c10 plainHost
    (InterpreterSession.new (some plainSession) none) plainSession
    "missing_mod" "missing_name" rfl⟩

/-! ## Sessions: move and destruction -/

/-- C4, the code at the failing input: after the defaulted move constructor the
moved-from session still holds the manager and the ordinal `w` of the session
it was moved from, as does the new session; destroying both sends the `free`
notification for `w` twice, and a pool at that address has `free(w)` applied
to its load balancer twice. -/
theorem InterpreterSession.move_keeps_ordinal_in_source
    (s : InterpreterSession) (r : ManagerRef) (w : Int)
    (hm : s.manager_ = some r) (hw : s.notify_idx_ = w) (h0 : 0 ≤ w) :
    s.move.2.manager_ = some r ∧ s.move.2.notify_idx_ = w ∧
    s.move.1.manager_ = some r ∧ s.move.1.notify_idx_ = w ∧
    s.move.2.destroy = some (r, w) ∧
    freeNotifications [s.move.2, s.move.1] = [(r, w), (r, w)] ∧
    ∀ m : InterpreterManager, m.addr = r →
      ((m.sessionDestroyed s.move.2).sessionDestroyed s.move.1).resources_ =
        (m.resources_.free w).free w := by
  have h2 : s.move.2.destroy = some (r, w) := by
    simp [InterpreterSession.move, InterpreterSession.destroy, hm, hw, h0]
  have h1 : s.move.1.destroy = some (r, w) := by
    simp [InterpreterSession.move, InterpreterSession.destroy, hm, hw, h0]
  refine ⟨hm, hw, hm, hw, h2, ?_, ?_⟩
  · simp [freeNotifications, List.filterMap_cons, h1, h2]
  · intro m hma
    simp [InterpreterManager.sessionDestroyed, h1, h2, hma]

/-- Witness of C4: a session holding ordinal 0 of the pool at address 1, moved
and then destroyed together with its source. -/
theorem InterpreterSession.move_keeps_ordinal_in_source_witness :
    freeNotifications
      [(InterpreterSession.move ⟨⟨0⟩, some plainSession, some 1, 0⟩).2,
       (InterpreterSession.move ⟨⟨0⟩, some plainSession, some 1, 0⟩).1] = [(1, 0), (1, 0)] :=
  (InterpreterSession.move_keeps_ordinal_in_source
    ⟨⟨0⟩, some plainSession, some 1, 0⟩ 1 0 rfl rfl (by decide)).2.2.2.2.2.1

/-! ## The pool -/

theorem LoadBalancer.free_allocated (lb : LoadBalancer) (w : Int) :
    (lb.free w).allocated_ = lb.allocated_ ∧ (lb.free w).n_ = lb.n_ := by
  unfold LoadBalancer.free
  split <;> exact ⟨rfl, rfl⟩

theorem InterpreterManager.sessionDestroyed_fields (m : InterpreterManager)
    (s : InterpreterSession) :
    (m.sessionDestroyed s).addr = m.addr ∧
    (m.sessionDestroyed s).instances_ = m.instances_ ∧
    (m.sessionDestroyed s).resources_.allocated_ = m.resources_.allocated_ ∧
    (m.sessionDestroyed s).resources_.n_ = m.resources_.n_ := by
  unfold InterpreterManager.sessionDestroyed
  split
  · exact ⟨rfl, rfl, rfl, rfl⟩
  · split
    · exact ⟨rfl, rfl, (LoadBalancer.free_allocated _ _).1, (LoadBalancer.free_allocated _ _).2⟩
    · exact ⟨rfl, rfl, rfl, rfl⟩

theorem Interpreter.acquire_session_manager (h : Host) (it : Interpreter) :
    (it.acquire_session h).1.manager_ = it.manager_ := rfl

theorem Interpreter.acquire_session_ok (h : Host) (it : Interpreter) (I : InterpreterSession)
    (hI : (it.acquire_session h).2 = .ok I) :
    ∃ impl, it.pImpl_.acquire_session.2 = .ok impl ∧
      I = InterpreterSession.new (some impl) it.manager_ := by
  unfold Interpreter.acquire_session at hI
  cases hp : it.pImpl_.acquire_session.2 with
  | error t => rw [hp] at hI; simp [deployTry] at hI
  | ok impl =>
    rw [hp] at hI
    simp only [deployTry, Except.ok.injEq] at hI
    exact ⟨impl, rfl, hI.symm⟩

theorem InterpreterManager.initInstance_ok (h : Host) (load : Nat → Except Thrown InterpreterImpl)
    (m m1 : InterpreterManager) (i : Nat) (u : Unit)
    (hi : InterpreterManager.initInstance h load m i = some (m1, .ok u)) :
    m1.addr = m.addr ∧
    (m1.resources_.allocated_ = m.resources_.allocated_ ∧ m1.resources_.n_ = m.resources_.n_) ∧
    ∃ it, it.manager_ = some m.addr ∧ m1.instances_ = m.instances_ ++ [it] := by
  unfold InterpreterManager.initInstance at hi
  cases hl : load i with
  | error t => rw [hl] at hi; simp [Interpreter.new] at hi
  | ok p =>
    rw [hl] at hi
    simp only [Interpreter.new] at hi
    split at hi
    · simp at hi
    · split at hi
      · simp at hi
      · simp only [Option.some.injEq, Prod.mk.injEq] at hi
        obtain ⟨hm1, -⟩ := hi
        rw [← hm1]
        have hf := InterpreterManager.sessionDestroyed_fields
        refine ⟨(hf _ _).1, ⟨(hf _ _).2.2.1, (hf _ _).2.2.2⟩, ?_⟩
        exact ⟨_, rfl, (hf _ _).2.1⟩

theorem InterpreterManager.initLoop_ok (h : Host) (load : Nat → Except Thrown InterpreterImpl)
    (this : ManagerRef) (k : Nat) :
    ∀ (i : Nat) (m m1 : InterpreterManager) (u : Unit),
      InterpreterManager.initLoop h load k i m = some (m1, .ok u) →
      m.addr = this → (∀ it ∈ m.instances_, it.manager_ = some this) →
      m1.addr = this ∧ (∀ it ∈ m1.instances_, it.manager_ = some this) ∧
        m1.instances_.length = m.instances_.length + k ∧
        (m1.resources_.allocated_ = m.resources_.allocated_ ∧
          m1.resources_.n_ = m.resources_.n_) := by
  induction k with
  | zero =>
    intro i m m1 u hl ha hall
    simp only [InterpreterManager.initLoop, Option.some.injEq, Prod.mk.injEq] at hl
    rw [← hl.1]
    exact ⟨ha, hall, rfl, rfl, rfl⟩
  | succ k ih =>
    intro i m m1 u hl ha hall
    simp only [InterpreterManager.initLoop] at hl
    split at hl
    · simp at hl
    · simp at hl
    · rename_i m2 u2 hinit
      obtain ⟨ha2, hal, it, hit, hins⟩ :=
        InterpreterManager.initInstance_ok h load m m2 i u2 hinit
      have hall2 : ∀ x ∈ m2.instances_, x.manager_ = some this := by
        intro x hx
        rw [hins, List.mem_append, List.mem_singleton] at hx
        rcases hx with hx | hx
        · exact hall x hx
        · rw [hx, hit, ha]
      obtain ⟨r1, r2, r3, r4⟩ := ih (i + 1) m2 m1 u hl (ha2.trans ha) hall2
      refine ⟨r1, r2, ?_, r4.1.trans hal.1, r4.2.trans hal.2⟩
      rw [r3, hins]
      simp
      omega

theorem InterpreterManager.new_wellFormed (h : Host) (load : Nat → Except Thrown InterpreterImpl)
    (this : ManagerRef) (n : Nat) (m0 : InterpreterManager)
    (hnew : InterpreterManager.new h load this n = some (.ok m0)) :
    InterpreterManager.WellFormed this n m0 := by
  unfold InterpreterManager.new at hnew
  split at hnew
  · simp at hnew
  · rename_i m u hloop
    simp only [Option.some.injEq, Except.ok.injEq] at hnew
    obtain ⟨r1, r2, r3, r4⟩ := InterpreterManager.initLoop_ok h load this n 0 _ m u hloop rfl
      (by intro it hit; simp at hit)
    rw [← hnew]
    refine ⟨r1, ?_, ?_, r2, ?_⟩
    · rw [r3]; simp
    · rw [r4.1]; rfl
    · rw [r4.2]; exact Nat.le_refl n
  · simp [deployTry] at hnew

theorem InterpreterManager.acquire_one_fields (h : Host) (m m1 : InterpreterManager)
    (out : Except Thrown InterpreterSession) (ha : m.acquire_one h = some (m1, out)) :
    ∃ w lb it, m.resources_.acquire = some (w, lb) ∧ 0 ≤ w ∧
      m.instances_[w.toNat]? = some it ∧
      m1 = { m with resources_ := lb,
                    instances_ := m.instances_.set w.toNat (it.acquire_session h).1 } ∧
      out = deployTry h (match (it.acquire_session h).2 with
              | .error t => .error t
              | .ok I => .ok { I with notify_idx_ := w }) := by
  unfold InterpreterManager.acquire_one at ha
  split at ha
  · simp at ha
  · rename_i w lb hacq
    split at ha
    · simp at ha
    · rename_i hw
      split at ha
      · simp at ha
      · rename_i it hit
        simp only [Option.some.injEq, Prod.mk.injEq] at ha
        exact ⟨w, lb, it, hacq, by omega, hit, ha.1.symm, ha.2.symm⟩

theorem LoadBalancer.acquire_allocated (lb lb1 : LoadBalancer) (w : Int)
    (ha : lb.acquire = some (w, lb1)) :
    lb1.allocated_ = lb.allocated_ ∧ lb1.n_ = lb.n_ := by
  unfold LoadBalancer.acquire at ha
  split at ha
  · simp at ha
  · simp only [Option.some.injEq, Prod.mk.injEq] at ha
    rw [← ha.2]
    exact ⟨rfl, rfl⟩

theorem InterpreterManager.step_wellFormed (h : Host) (this : ManagerRef) (n : Nat)
    (m : InterpreterManager) (op : PoolOp) (hwf : InterpreterManager.WellFormed this n m) :
    InterpreterManager.WellFormed this n (m.step h op) := by
  obtain ⟨h1, h2, h3, h4, h5⟩ := hwf
  cases op with
  | acquire_one =>
    simp only [InterpreterManager.step]
    split
    · exact ⟨h1, h2, h3, h4, h5⟩
    · rename_i r hr
      obtain ⟨w, lb, it, hacq, hw, hit, hm1, -⟩ :=
        InterpreterManager.acquire_one_fields h m r.1 r.2 hr
      rw [hm1]
      refine ⟨h1, ?_, ?_, ?_, ?_⟩
      · simp [h2]
      · exact (LoadBalancer.acquire_allocated _ _ _ hacq).1.trans h3
      · intro x hx
        rcases List.mem_or_eq_of_mem_set hx with hx | hx
        · exact h4 x hx
        · rw [hx, Interpreter.acquire_session_manager]
          exact h4 it (List.getElem?_mem hit)
      · show lb.n_ ≤ n
        rw [(LoadBalancer.acquire_allocated _ _ _ hacq).2]
        exact h5
  | debugLimitInterpreters N =>
    simp only [InterpreterManager.step, InterpreterManager.debugLimitInterpreters]
    split
    · rename_i hN
      refine ⟨h1, h2, (LoadBalancer.setResourceLimit_allocated h _ N).trans h3, h4, ?_⟩
      show (m.resources_.setResourceLimit h N).1.n_ ≤ n
      rw [LoadBalancer.setResourceLimit_ok h _ N (by omega)]
      show N ≤ n
      omega
    · exact ⟨h1, h2, h3, h4, h5⟩
  | destroySession s =>
    simp only [InterpreterManager.step]
    obtain ⟨f1, f2, f3, f4⟩ := InterpreterManager.sessionDestroyed_fields m s
    exact ⟨f1.trans h1, by rw [f2]; exact h2, f3.trans h3, by rw [f2]; exact h4,
      by rw [f4]; exact h5⟩

theorem InterpreterManager.run_wellFormed (h : Host) (this : ManagerRef) (n : Nat)
    (ops : List PoolOp) (m : InterpreterManager)
    (hwf : InterpreterManager.WellFormed this n m) :
    InterpreterManager.WellFormed this n (m.run h ops) := by
  induction ops generalizing m with
  | nil => exact hwf
  | cons op ops ih =>
    exact ih (m.step h op) (InterpreterManager.step_wellFormed h this n m op hwf)

theorem LoadBalancer.scan_some (lb : LoadBalancer) (n : Nat) (hn : 0 < n) :
    ∃ b, b < n ∧ (List.range n).foldl lb.scanStep none = some b := by
  induction n with
  | zero => omega
  | succ n ih =>
    rw [List.range_succ, List.foldl_append]
    rcases Nat.eq_zero_or_pos n with h0 | hpos
    · subst h0
      exact ⟨0, by omega, rfl⟩
    · obtain ⟨b, hb, hfold⟩ := ih hpos
      rw [hfold]
      simp only [List.foldl_cons, List.foldl_nil, LoadBalancer.scanStep]
      split
      · exact ⟨n, by omega, rfl⟩
      · exact ⟨b, by omega, rfl⟩

theorem InterpreterManager.initInstance_defined (h : Host)
    (load : Nat → Except Thrown InterpreterImpl) (m : InterpreterManager) (i : Nat) :
    ∃ r, InterpreterManager.initInstance h load m i = some r := by
  unfold InterpreterManager.initInstance
  cases hl : load i with
  | error t => exact ⟨_, rfl⟩
  | ok p =>
    simp only [Interpreter.new]
    cases hs : (Interpreter.acquire_session h { pImpl_ := p, manager_ := some m.addr }).2 with
    | error t => exact ⟨_, rfl⟩
    | ok I =>
      obtain ⟨impl, -, hI⟩ := Interpreter.acquire_session_ok h _ I hs
      simp only
      have hg : ∃ g, I.global h "torch" "version" = some g := by
        rw [hI]; exact ⟨_, rfl⟩
      obtain ⟨g, hg⟩ := hg
      have ht : ∃ out, I.tagVersion h i = some out := by
        unfold InterpreterSession.tagVersion
        rw [hg]
        cases g with
        | error t => exact ⟨_, rfl⟩
        | ok v =>
          simp only
          cases h.objAttr v "__setattr__" with
          | error t => exact ⟨_, rfl⟩
          | ok f =>
            simp only
            cases h.objCall f [.str "interp", .int (Int.bmod (i : Int) (2 ^ 32))] with
            | error t => exact ⟨_, rfl⟩
            | ok _ => exact ⟨_, rfl⟩
      obtain ⟨out, ht⟩ := ht
      rw [ht]
      exact ⟨_, rfl⟩

theorem InterpreterManager.initLoop_defined (h : Host)
    (load : Nat → Except Thrown InterpreterImpl) (k : Nat) :
    ∀ (i : Nat) (m : InterpreterManager),
      ∃ r, InterpreterManager.initLoop h load k i m = some r := by
  induction k with
  | zero => intro i m; exact ⟨_, rfl⟩
  | succ k ih =>
    intro i m
    obtain ⟨r, hr⟩ := InterpreterManager.initInstance_defined h load m i
    simp only [InterpreterManager.initLoop, hr]
    obtain ⟨m1, out⟩ := r
    cases out with
    | error t => exact ⟨_, rfl⟩
    | ok u => exact ih (i + 1) m1

/-- The constructor always has an outcome: it returns a pool or throws. -/
theorem InterpreterManager.new_defined (h : Host)
    (load : Nat → Except Thrown InterpreterImpl) (this : ManagerRef) (n : Nat) :
    ∃ r, InterpreterManager.new h load this n = some r := by
  unfold InterpreterManager.new
  obtain ⟨r, hr⟩ := InterpreterManager.initLoop_defined h load n 0
    { addr := this, next_object_id_ := 0, instances_ := [],
      resources_ := LoadBalancer.new n }
  rw [hr]
  obtain ⟨m1, out⟩ := r
  cases out with
  | error t => exact ⟨_, rfl⟩
  | ok u => exact ⟨_, rfl⟩

/-- In a pool built by the constructor and then used in any way, `acquire_one`
has an outcome whenever the active limit is positive. -/
theorem InterpreterManager.acquire_one_defined (h : Host) (this : ManagerRef) (n : Nat)
    (m : InterpreterManager) (hwf : InterpreterManager.WellFormed this n m)
    (hpos : 0 < m.resources_.n_) :
    ∃ r, m.acquire_one h = some r := by
  obtain ⟨-, h2, -, -, h5⟩ := hwf
  obtain ⟨b, hb, hscan⟩ := LoadBalancer.scan_some m.resources_ m.resources_.n_ hpos
  have hlt : b < m.instances_.length := by omega
  have hget : m.instances_[b]? = some (m.instances_[b]) := List.getElem?_eq_getElem hlt
  have hacq : m.resources_.acquire = some ((b : Int),
      m.resources_.setCount b ((m.resources_.count b + 1) % 2 ^ 64)) := by
    simp only [LoadBalancer.acquire, LoadBalancer.leastUsed, hscan]
  unfold InterpreterManager.acquire_one
  rw [hacq]
  simp only
  rw [if_neg (by omega)]
  simp only [Int.toNat_ofNat, hget]
  exact ⟨_, rfl⟩

/-- C5, the code at the failing input: the pool built with one instance whose
runtime gives a session during construction and throws on the next request.
Before the call the usage counter of ordinal 0 is 0; `acquire_one` throws a
`c10::Error`, returns no session, and leaves the counter at 1. -/
theorem InterpreterManager.acquire_one_failure_keeps_usage :
    ∃ m0 m1 e,
      InterpreterManager.new plainHost (fun _ => .ok flakyRuntime) 0 1 = some (.ok m0) ∧
      m0.resources_.count 0 = 0 ∧
      m0.resources_.acquire = some (0, m0.resources_.setCount 0 1) ∧
      m0.acquire_one plainHost = some (m1, .error (.c10 e)) ∧
      e.msg = "Exception Caught inside torch::deploy embedded library: \n" ++
        ("Exception Caught inside torch::deploy embedded library: \n" ++ "busy" ++ "\n" ++ "") ∧
      m1.resources_.count 0 = 1 :=
  ⟨_, _, _, rfl, rfl, rfl, rfl, rfl, rfl⟩

/-- C6, the claim refuted: with instance count zero the constructor returns a
pool, it does not throw. -/
theorem InterpreterManager.new_zero_not_rejected :
    (InterpreterManager.new plainHost (fun _ => .ok steadyRuntime) 0 0).map failed = some false ∧
    ∃ m, InterpreterManager.new plainHost (fun _ => .ok steadyRuntime) 0 0 = some (.ok m) ∧
      m.instances_ = [] ∧ m.resources_.uses_ = [] :=
  ⟨rfl, _, rfl, rfl, rfl⟩

/-- C6 as amended: for `n_interp = 0` the constructor succeeds whatever the host
and the runtimes are, and yields the pool with no instances whose load balancer
has no counters, capacity 0 and active limit 0. -/
theorem InterpreterManager.new_zero_succeeds (h : Host)
    (load : Nat → Except Thrown InterpreterImpl) (this : ManagerRef) :
    InterpreterManager.new h load this 0 =
      some (.ok { addr := this, next_object_id_ := 0, instances_ := [],
                  resources_ := { uses_ := [], allocated_ := 0, n_ := 0 } }) :=
  rfl

/-- C9: in a pool built with `n` instances and then used in any way,
`debugLimitInterpreters(N)` fails exactly when `N > n`, which is exactly when
the load balancer's `setResourceLimit(N)` fails; it leaves the load balancer in
the state `setResourceLimit(N)` leaves it in, and when `N ≤ n` it succeeds with
active limit `N`. The check `N <= instances_.size()` and the check
`N <= allocated_` agree because both sizes are `n`. -/
theorem InterpreterManager.debugLimitInterpreters_as_setResourceLimit
    (h : Host) (load : Nat → Except Thrown InterpreterImpl) (this : ManagerRef) (n : Nat)
    (m0 : InterpreterManager) (ops : List PoolOp) (N : Nat)
    (hnew : InterpreterManager.new h load this n = some (.ok m0)) :
    (failed ((m0.run h ops).debugLimitInterpreters h N).2 = true ↔ n < N) ∧
    failed ((m0.run h ops).debugLimitInterpreters h N).2 =
      failed ((m0.run h ops).resources_.setResourceLimit h N).2 ∧
    ((m0.run h ops).debugLimitInterpreters h N).1.resources_ =
      ((m0.run h ops).resources_.setResourceLimit h N).1 ∧
    (N ≤ n →
      ((m0.run h ops).debugLimitInterpreters h N).2 = .ok () ∧
      ((m0.run h ops).debugLimitInterpreters h N).1.resources_.n_ = N) ∧
    (N ≤ (m0.run h ops).instances_.length ↔ N ≤ (m0.run h ops).resources_.allocated_) ∧
    (m0.run h ops).instances_.length = n ∧ (m0.run h ops).resources_.allocated_ = n := by
  obtain ⟨-, hlen, hal, -, -⟩ := InterpreterManager.run_wellFormed h this n ops m0
    (InterpreterManager.new_wellFormed h load this n m0 hnew)
  by_cases hN : N ≤ n
  · have h1 : N ≤ (m0.run h ops).instances_.length := by omega
    have h2 : N ≤ (m0.run h ops).resources_.allocated_ := by omega
    have hd : (m0.run h ops).debugLimitInterpreters h N =
        ({ m0.run h ops with resources_ := { (m0.run h ops).resources_ with n_ := N } },
          .ok ()) := by
      simp [InterpreterManager.debugLimitInterpreters, h1,
        LoadBalancer.setResourceLimit_ok h _ N h2, deployTry]
    rw [hd, LoadBalancer.setResourceLimit_ok h _ N h2]
    refine ⟨?_, rfl, rfl, fun _ => ⟨rfl, rfl⟩, ?_, hlen, hal⟩
    · simp [failed]; omega
    · omega
  · have h1 : ¬ N ≤ (m0.run h ops).instances_.length := by omega
    have h2 : (m0.run h ops).resources_.allocated_ < N := by omega
    have hd : (m0.run h ops).debugLimitInterpreters h N =
        (m0.run h ops, deployTry h (.error (.c10 (h.atAssert "N <= instances_.size()")))) := by
      simp [InterpreterManager.debugLimitInterpreters, h1]
    rw [hd, LoadBalancer.setResourceLimit_error h _ N h2]
    refine ⟨?_, rfl, rfl, fun hc => absurd hc hN, ?_, hlen, hal⟩
    · simp [failed, deployTry]; omega
    · omega

/-- Witness of C9: a pool of two instances, limited to 1, asked for the limit 3. -/
theorem InterpreterManager.debugLimitInterpreters_as_setResourceLimit_witness :
    ∃ m0, InterpreterManager.new plainHost (fun _ => .ok steadyRuntime) 5 2 = some (.ok m0) ∧
      (failed ((m0.run plainHost [.debugLimitInterpreters 1]).debugLimitInterpreters
        plainHost 3).2 = true ↔ 2 < 3) :=
  ⟨_, rfl, (InterpreterManager.debugLimitInterpreters_as_setResourceLimit plainHost
    (fun _ => .ok steadyRuntime) 5 2 _ [.debugLimitInterpreters 1] 3 rfl).1⟩

/-! ## Selection by the load balancer -/

theorem LoadBalancer.count_setCount_self (lb : LoadBalancer) (i v : Nat)
    (hi : 8 * i < lb.uses_.length) : (lb.setCount i v).count i = v := by
  simp [LoadBalancer.count, LoadBalancer.setCount, List.getD_eq_getElem?_getD,
    List.getElem?_set, hi]

theorem LoadBalancer.count_setCount_ne (lb : LoadBalancer) (i j v : Nat) (hij : i ≠ j) :
    (lb.setCount i v).count j = lb.count j := by
  have h8 : 8 * i ≠ 8 * j := by omega
  simp [LoadBalancer.count, LoadBalancer.setCount, List.getD_eq_getElem?_getD,
    List.getElem?_set, h8]

theorem LoadBalancer.scan_eq (lb : LoadBalancer) (w : Nat) (n : Nat) (hw : w < n)
    (hlt : ∀ i, i < w → lb.count w < lb.count i)
    (hle : ∀ i, w < i → i < n → lb.count w ≤ lb.count i) :
    (List.range n).foldl lb.scanStep none = some w := by
  induction n with
  | zero => omega
  | succ n ih =>
    rw [List.range_succ, List.foldl_append]
    rcases Nat.lt_or_ge w n with hwn | hwn
    · rw [ih hwn (fun i h1 h2 => hle i h1 (by omega))]
      have := hle n hwn (by omega)
      simp only [List.foldl_cons, List.foldl_nil, LoadBalancer.scanStep]
      rw [if_neg (by omega)]
    · have hwe : w = n := by omega
      subst hwe
      rcases Nat.eq_zero_or_pos w with h0 | hpos
      · subst h0
        rfl
      · obtain ⟨b, hb, hfold⟩ := lb.scan_some w hpos
        rw [hfold]
        simp only [List.foldl_cons, List.foldl_nil, LoadBalancer.scanStep]
        rw [if_pos (hlt b hb)]

theorem LoadBalancer.acquire_stair (lb : LoadBalancer) (j : Nat)
    (hst : ∀ i, i < lb.n_ → lb.count i = if i < j then 1 else 0)
    (hj : j < lb.n_) (hsz : 8 * lb.n_ ≤ lb.uses_.length) :
    lb.acquire = some ((j : Int), lb.setCount j 1) ∧
    (∀ i, i < (lb.setCount j 1).n_ → (lb.setCount j 1).count i = if i < j + 1 then 1 else 0) ∧
    (lb.setCount j 1).n_ = lb.n_ ∧ (lb.setCount j 1).uses_.length = lb.uses_.length := by
  have hcj : lb.count j = 0 := by rw [hst j hj, if_neg (by omega)]
  have hleast : lb.leastUsed = some j := by
    apply LoadBalancer.scan_eq lb j lb.n_ hj
    · intro i hi
      rw [hcj, hst i (by omega), if_pos hi]
      omega
    · intro i _ _
      rw [hcj]
      omega
  refine ⟨?_, ?_, rfl, ?_⟩
  · simp [LoadBalancer.acquire, hleast, hcj]
  · intro i hi
    have hi2 : i < lb.n_ := hi
    rcases Nat.lt_trichotomy i j with h1 | h1 | h1
    · rw [LoadBalancer.count_setCount_ne lb j i 1 (by omega), hst i hi2, if_pos h1,
        if_pos (by omega)]
    · subst h1
      rw [LoadBalancer.count_setCount_self lb i 1 (by omega), if_pos (by omega)]
    · rw [LoadBalancer.count_setCount_ne lb j i 1 (by omega), hst i hi2, if_neg (by omega),
        if_neg (by omega)]
  · simp [LoadBalancer.setCount]

theorem LoadBalancer.acquireN_stair (k : Nat) :
    ∀ (j : Nat) (lb : LoadBalancer),
      (∀ i, i < lb.n_ → lb.count i = if i < j then 1 else 0) →
      j + k ≤ lb.n_ → 8 * lb.n_ ≤ lb.uses_.length →
      ∃ lb1, lb.acquireN k = some ((List.range' j k).map Int.ofNat, lb1) ∧
        lb1.n_ = lb.n_ ∧
        ∀ i, i < lb.n_ → lb1.count i = if i < j + k then 1 else 0 := by
  induction k with
  | zero =>
    intro j lb hst _ _
    exact ⟨lb, rfl, rfl, hst⟩
  | succ k ih =>
    intro j lb hst hjk hsz
    obtain ⟨hacq, hst1, hn1, hlen1⟩ := lb.acquire_stair j hst (by omega) hsz
    obtain ⟨lb1, hrun, hn2, hst2⟩ := ih (j + 1) (lb.setCount j 1) hst1
      (by rw [hn1]; omega) (by rw [hn1, hlen1]; exact hsz)
    refine ⟨lb1, ?_, hn2.trans hn1, ?_⟩
    · simp only [LoadBalancer.acquireN, hacq, hrun]
      rfl
    · intro i hi
      rw [hst2 i (by rw [hn1]; exact hi)]
      have : j + 1 + k = j + (k + 1) := by omega
      rw [this]

/-- C8: on a load balancer whose eligible counters are all zero and are all
inside the counter array, `k ≤ active_limit` calls of `acquire` with no `free`
in between all return an ordinal, and the `k` ordinals are pairwise distinct,
each in `[0, active_limit)`. With 3 instances the first three acquisitions
return 0, 1, 2 and a fourth returns 0, the lowest of the tied ordinals, whose
usage counter is then 2. -/
theorem LoadBalancer.acquireN_distinct (lb : LoadBalancer) (k : Nat)
    (hzero : ∀ i, i < lb.n_ → lb.count i = 0)
    (hsz : 8 * lb.n_ ≤ lb.uses_.length) (hk : k ≤ lb.n_) :
    (∃ ws lb1, lb.acquireN k = some (ws, lb1) ∧ ws.length = k ∧ ws.Nodup ∧
      ∀ w ∈ ws, 0 ≤ w ∧ w < (lb.n_ : Int)) ∧
    (∃ lb3 lb4, (LoadBalancer.new 3).acquireN 3 = some ([0, 1, 2], lb3) ∧
      lb3.acquire = some (0, lb4) ∧ lb3.count 0 = 1 ∧ lb3.count 1 = 1 ∧ lb3.count 2 = 1 ∧
      lb4.count 0 = 2) := by
  constructor
  · obtain ⟨lb1, hrun, -, -⟩ := LoadBalancer.acquireN_stair k 0 lb
      (by intro i hi; rw [hzero i hi]; simp) (by omega) hsz
    refine ⟨_, lb1, hrun, by simp, ?_, ?_⟩
    · exact (List.nodup_range' 0 k).map (fun a b hab => Int.ofNat.inj hab)
    · intro w hw
      rw [List.mem_map] at hw
      obtain ⟨a, ha, rfl⟩ := hw
      rw [List.mem_range'_1] at ha
      constructor
      · exact Int.ofNat_nonneg a
      · show (a : Int) < (lb.n_ : Int)
        omega
  · exact ⟨_, _, rfl, rfl, rfl, rfl, rfl, rfl⟩

/-- Witness of C8: three acquisitions on the load balancer constructed with 3 counters. -/
theorem LoadBalancer.acquireN_distinct_witness :
    (∀ i, i < (LoadBalancer.new 3).n_ → (LoadBalancer.new 3).count i = 0) ∧
    8 * (LoadBalancer.new 3).n_ ≤ (LoadBalancer.new 3).uses_.length ∧
    3 ≤ (LoadBalancer.new 3).n_ ∧
    ∃ ws lb1, (LoadBalancer.new 3).acquireN 3 = some (ws, lb1) ∧ ws.length = 3 ∧ ws.Nodup ∧
      ∀ w ∈ ws, 0 ≤ w ∧ w < ((LoadBalancer.new 3).n_ : Int) :=
  have hz : ∀ i, i < (LoadBalancer.new 3).n_ → (LoadBalancer.new 3).count i = 0 := by
    intro i hi
    have hi3 : i < 3 := hi
    interval_cases i <;> rfl
  ⟨hz, by decide, by decide,
    (LoadBalancer.acquireN_distinct (LoadBalancer.new 3) 3 hz (by decide) (by decide)).1⟩

/-! ## Nested guards -/

theorem deployTryN_error {α : Type} (h : Host)
    (hwhat : ∀ e, ∃ s, h.c10what e = e.msg ++ s) (t : Thrown) (w : String)
    (ht : t.what h = some w) (k : Nat) :
    ∃ s, deployTryN h (k + 1) (.error t : Except Thrown α) =
      .error (.c10 ⟨guardTexts (k + 1) ++ w ++ s, ""⟩) := by
  induction k with
  | zero =>
    refine ⟨"", ?_⟩
    simp [deployTryN, deployTry, rethrow_of_what h t w ht, guardTexts]
  | succ k ih =>
    obtain ⟨s, hs⟩ := ih
    obtain ⟨s2, hs2⟩ := hwhat ⟨guardTexts (k + 1) ++ w ++ s, ""⟩
    refine ⟨s ++ s2, ?_⟩
    rw [deployTryN, hs]
    simp only [deployTry, rethrow, hs2]
    simp [guardTexts, String.append_assoc]

theorem rethrow_twice_ne (h : Host) (hwhat : ∀ e, ∃ s, h.c10what e = e.msg ++ s) (t : Thrown) :
    rethrow h (rethrow h t) ≠ rethrow h t := by
  obtain ⟨e, he⟩ := rethrow_is_c10 h t
  obtain ⟨s, hs⟩ := hwhat e
  rw [he]
  simp only [rethrow, hs]
  intro hc
  injection hc with hc
  have hlen := congrArg (fun x => x.msg.length) hc
  simp only [String.length_append] at hlen
  have hpos : 0 < caughtText.length := by decide
  omega

/-- C10: the guard wraps a `c10::Error` again. If the body of a guarded
operation throws a `c10::Error` whose `what()` is `w`, the caller receives a
`c10::Error` whose message is the guard's text followed by `w`; the failed
assertion of `setResourceLimit` is received that way. When `what()` of a
`c10::Error` starts with its message, an exception with text `w` that crosses
`k + 1` nested guards arrives with the guard's text `k + 1` times in front of
`w`, as it does through the two guards of `acquire_one` and
`Interpreter::acquire_session`; applying the guard twice never gives what
applying it once gives. -/
theorem deployTry_rewraps_c10 (α : Type) (h : Host)
    (hwhat : ∀ e, ∃ s, h.c10what e = e.msg ++ s) :
    (∀ (e : C10Error) (w : String), h.c10what e = w →
      deployTry h (.error (.c10 e) : Except Thrown α) =
        .error (.c10 ⟨"Exception Caught inside torch::deploy embedded library: \n" ++ w, ""⟩)) ∧
    (∀ (lb : LoadBalancer) (m : Nat), lb.allocated_ < m →
      (lb.setResourceLimit h m).2 =
        .error (.c10 ⟨"Exception Caught inside torch::deploy embedded library: \n" ++
          h.c10what (h.internalAssert "n <= allocated_"), ""⟩)) ∧
    (∀ (t : Thrown) (w : String) (k : Nat), t.what h = some w →
      ∃ s, deployTryN h (k + 1) (.error t : Except Thrown α) =
          .error (.c10 ⟨guardTexts (k + 1) ++ w ++ s, ""⟩) ∧
        w.data <:+: (guardTexts (k + 1) ++ w ++ s).data) ∧
    (∀ (m m1 : InterpreterManager) (t : Thrown) (w : String) (out : Except Thrown InterpreterSession)
        (wh : Int) (lb : LoadBalancer) (it : Interpreter),
      m.resources_.acquire = some (wh, lb) → m.instances_[wh.toNat]? = some it →
      it.pImpl_.acquire_session.2 = .error t → t.what h = some w →
      m.acquire_one h = some (m1, out) →
      ∃ s, out = .error (.c10 ⟨guardTexts 2 ++ w ++ s, ""⟩)) ∧
    (∀ t : Thrown, deployTry h (deployTry h (.error t : Except Thrown α)) ≠
      deployTry h (.error t)) := by
  refine ⟨?_, ?_, ?_, ?_, ?_⟩
  · intro e w hw
    simp [deployTry, rethrow, hw, caughtText]
  · intro lb m hm
    rw [LoadBalancer.setResourceLimit_error h lb m hm]
    rfl
  · intro t w k ht
    obtain ⟨s, hs⟩ := deployTryN_error (α := α) h hwhat t w ht k
    refine ⟨s, hs, ?_⟩
    rw [String.data_append, String.data_append]
    exact ⟨(guardTexts (k + 1)).data, s.data, by simp⟩
  · intro m m1 t w out wh lb it hacq hit hthrow ht hone
    obtain ⟨w2, lb2, it2, hacq2, -, hit2, -, hout⟩ :=
      InterpreterManager.acquire_one_fields h m m1 out hone
    rw [hacq] at hacq2
    simp only [Option.some.injEq, Prod.mk.injEq] at hacq2
    obtain ⟨hw2, -⟩ := hacq2
    subst hw2
    rw [hit] at hit2
    simp only [Option.some.injEq] at hit2
    subst hit2
    obtain ⟨s, hs⟩ := deployTryN_error (α := InterpreterSession) h hwhat t w ht 1
    refine ⟨s, ?_⟩
    rw [hout, ← hs]
    simp [Interpreter.acquire_session, hthrow, deployTryN, deployTry]
  · intro t hc
    simp only [deployTry, Except.error.injEq] at hc
    exact rethrow_twice_ne h hwhat t hc

/-- Witness of C10: the host whose `what()` is the message, a newline and the
backtrace; a `std::exception` with text `busy` crossing three guards. -/
theorem deployTry_rewraps_c10_witness :
    (∀ e, ∃ s, plainHost.c10what e = e.msg ++ s) ∧
    ∃ s, deployTryN plainHost 3 (.error (.stdexc "busy") : Except Thrown Unit) =
        .error (.c10 ⟨guardTexts 3 ++ "busy" ++ s, ""⟩) ∧
      "busy".data <:+: (guardTexts 3 ++ "busy" ++ s).data :=
  have hwhat : ∀ e, ∃ s, plainHost.c10what e = e.msg ++ s :=
    fun e => ⟨"\n" ++ e.backtrace, String.append_assoc _ _ _⟩
  ⟨hwhat, (deployTry_rewraps_c10 Unit plainHost hwhat).2.2.1 (.stdexc "busy") "busy" 2 rfl⟩

end torch.deploy
